import Mathlib

/-!
# A shallow embedding of the STrace manifest-free ETW logger (`EtwLogger.cpp`)

This file models the metadata-encoding and provider-lifecycle engine of the
logger: event/provider metadata blob construction, the provider cache, event
registration and the data-descriptor array handed to the tracing subsystem's
write primitive.  External collaborators (the kernel allocator, `EtwRegister`,
`EtwSetInformation`, `EtwWrite`) are modelled by oracles: a Boolean telling
whether an allocation succeeds, and the status each subsystem call returns.

Machine integers are modelled as `Nat` with explicit `% 2^w` where the source
truncates (the blob length fields are `uint16_t`).  C strings are modelled as
Lean `String`s in which every character stands for one byte (`toNat % 256`);
`strlen` is the character count.  Pool pointers carry provenance so that
aliasing claims (descriptor points at caller memory vs. a fresh allocation)
are expressible.
-/

namespace STrace

/-- `STATUS_SUCCESS`. -/
def STATUS_SUCCESS : Nat := 0

/-- `STATUS_UNSUCCESSFUL` (0xC0000001). -/
def STATUS_UNSUCCESSFUL : Nat := 0xC0000001

/-- `PASSIVE_LEVEL` IRQL. -/
def PASSIVE_LEVEL : Nat := 0

/-! ## The `ETW_FIELD_TYPE` enumeration (values from the source `enum`) -/

def EtwFieldNull : Nat := 0
def EtwFieldUnicodeString : Nat := 1
def EtwFieldAnsiString : Nat := 2
def EtwFieldInt8 : Nat := 3
def EtwFieldUInt8 : Nat := 4
def EtwFieldInt16 : Nat := 5
def EtwFieldUInt16 : Nat := 6
def EtwFieldInt32 : Nat := 7
def EtwFieldUInt32 : Nat := 8
def EtwFieldInt64 : Nat := 9
def EtwFieldUInt64 : Nat := 10
def EtwFieldFloat : Nat := 11
def EtwFieldDouble : Nat := 12
def EtwFieldBool32 : Nat := 13
def EtwFieldBinary : Nat := 14
def EtwFieldGuid : Nat := 15
def EtwFieldPointer : Nat := 16
def EtwFieldFiletime : Nat := 17
def EtwFieldSystemTime : Nat := 18
def EtwFieldSid : Nat := 19
def EtwFieldHexInt32 : Nat := 20
def EtwFieldHexInt64 : Nat := 21
/-- `EtwFieldPid = (EtwFieldInt32 | 0x05 << 8)`. -/
def EtwFieldPid : Nat := 0x507

/-! ## Byte-level modelling of C strings and little-endian 16-bit fields -/

/-- `strlen`: number of characters (= modelled bytes) of a C string. -/
def strlen (s : String) : Nat := s.data.length

/-- The bytes of a C string, one byte per character. -/
def strBytes (s : String) : List Nat := s.data.map (fun c => c.toNat % 256)

/-- A NUL-terminated C string as written by `strcpy` (content plus terminator). -/
def cstr (s : String) : List Nat := strBytes s ++ [0]

/-- Little-endian encoding of a `uint16_t` value. -/
def u16le (n : Nat) : List Nat := [n % 256, n / 256 % 256]

/-- Decode the leading little-endian `uint16_t` of a byte list. -/
def decodeU16 : List Nat → Nat
  | b0 :: b1 :: _ => b0 + 256 * b1
  | _ => 0

/-! ## Field arguments (the variadic (name, type, value) triples) -/

/-- The raw value a call site passes for one field: either a plain scalar
(`va_arg(args, size_t)` reads its 8 raw bytes) or a pointer to a caller-owned
ANSI string, modelled with its address and the string content stored there. -/
inductive FieldValue where
  | scalar (v : Nat)
  | astr (addr : Nat) (s : String)
deriving DecidableEq

/-- One (field name, field type, field value) triple of the variadic list. -/
structure FieldArg where
  name : String
  ftype : Nat
  value : FieldValue
deriving DecidableEq

/-! ## Event metadata blob (`EtwProviderEvent::Initialize`) -/

/-- `eventMetadataHeaderLength = strlen(eventName) + 1 + sizeof(uint16_t) + sizeof(uint8_t)`. -/
def eventMetadataHeaderLength (eventName : String) : Nat :=
  strlen eventName + 1 + 2 + 1

/-- `eventMetadataLength`: the `uint16_t` accumulator of the measuring pass.
It starts from the header length cast to `uint16_t` and adds, for each field,
`(uint16_t)(strlen(fieldName) + 1 + sizeof(uint8_t))`, wrapping at `2^16` at
every step exactly as the C `uint16_t` arithmetic does. -/
def eventMetadataLength (eventName : String) (fields : List FieldArg) : Nat :=
  fields.foldl (fun acc f => (acc + (strlen f.name + 1 + 1) % 65536) % 65536)
    (eventMetadataHeaderLength eventName % 65536)

/-- The mathematical (untruncated) serialized size of the event metadata. -/
def trueEventMetadataLength (eventName : String) (fields : List FieldArg) : Nat :=
  eventMetadataHeaderLength eventName + (fields.map (fun f => strlen f.name + 1 + 1)).sum

/-- The serialized bytes of one field's metadata: NUL-terminated field name
followed by the single type byte (`(uint8_t)fieldType`). -/
def fieldMetaBytes (f : FieldArg) : List Nat := cstr f.name ++ [f.ftype % 256]

/-- The serialized event metadata blob written by `EtwProviderEvent::Initialize`:
`[u16 TotalLength][u8 Tag = 0][NUL-terminated eventName]` followed by the
field tuples.  `TotalLength` holds the (possibly truncated) `uint16_t`
accumulator value. -/
def eventMetadataBlob (eventName : String) (fields : List FieldArg) : List Nat :=
  u16le (eventMetadataLength eventName fields) ++ [0] ++ cstr eventName ++
    (fields.map fieldMetaBytes).flatten

/-! ## Provider metadata blob (`EtwProvider::Initialize`) -/

/-- `providerMetadataLength = (uint16_t)((strlen(providerName) + 1) + sizeof(uint16_t))`. -/
def providerMetadataLength (providerName : String) : Nat :=
  (strlen providerName + 1 + 2) % 65536

/-- The serialized provider metadata blob: `[u16 TotalLength][NUL-terminated name]`. -/
def providerMetadataBlob (providerName : String) : List Nat :=
  u16le (providerMetadataLength providerName) ++ cstr providerName

/-! ## Descriptors and pointer provenance -/

/-- Provenance of an address held in an `EVENT_DATA_DESCRIPTOR`. -/
inductive PtrM where
  | null
  | caller (addr : Nat)
  | pool (id : Nat)
deriving DecidableEq

/-- `EVENT_DATA_DESCRIPTOR`: pointer, size, descriptor type
(`0` = payload data, `1` = event metadata, `2` = provider metadata).
The `bytes` component records the content stored at `Ptr` when the descriptor
was created, standing in for the heap. -/
structure EVENT_DATA_DESCRIPTOR where
  Ptr : PtrM
  Size : Nat
  DescType : Nat
  bytes : List Nat
deriving DecidableEq

/-- A descriptor fully zeroed by `memset`. -/
def zeroedDescriptor : EVENT_DATA_DESCRIPTOR :=
  { Ptr := PtrM.null, Size := 0, DescType := 0, bytes := [] }

/-- `EVENT_DESCRIPTOR` as filled by `CreateEventDescriptor` (unset members
are zeroed by `memset`). -/
structure EVENT_DESCRIPTOR where
  Id : Nat
  Version : Nat
  Channel : Nat
  Level : Nat
  Opcode : Nat
  Task : Nat
  Keyword : Nat
deriving DecidableEq

/-- `CreateEventDescriptor(keyword, level)`: zeroed descriptor with
`Channel = 11`, the given keyword and level. -/
def CreateEventDescriptor (keyword level : Nat) : EVENT_DESCRIPTOR :=
  { Id := 0, Version := 0, Channel := 11, Level := level, Opcode := 0,
    Task := 0, Keyword := keyword }

/-! ## `SizeOfField` and `CreateTraceProperty` -/

/-- The `void* fieldValue` argument `WriteEvent` passes down: either the
address of the local `size_t` holding the raw argument (non-string types) or
the caller's string pointer (ANSI string type), carrying the pointed-to
content. -/
inductive MemSrc where
  | stack (v : Nat)
  | callerPtr (addr : Nat) (s : String)
deriving DecidableEq

/-- `strlen` applied to the pointer `SizeOfField` receives.  Reading the raw
stack slot of a scalar as a C string is undefined behaviour in the source;
the model makes it length 0 (claims about strings only cover `callerPtr`). -/
def strlenM : MemSrc → Nat
  | MemSrc.stack _ => 0
  | MemSrc.callerPtr _ s => strlen s

/-- `EtwProvider::SizeOfField`: switch on `fieldType & 0x000000FF`. -/
def SizeOfField (fieldType : Nat) (fieldValue : MemSrc) : Nat :=
  if Nat.land fieldType 255 = EtwFieldAnsiString then strlenM fieldValue + 1
  else if Nat.land fieldType 255 = EtwFieldInt8 then 1
  else if Nat.land fieldType 255 = EtwFieldUInt8 then 1
  else if Nat.land fieldType 255 = EtwFieldInt16 then 2
  else if Nat.land fieldType 255 = EtwFieldUInt16 then 2
  else if Nat.land fieldType 255 = EtwFieldInt32 then 4
  else if Nat.land fieldType 255 = EtwFieldUInt32 then 4
  else if Nat.land fieldType 255 = EtwFieldInt64 then 8
  else if Nat.land fieldType 255 = EtwFieldUInt64 then 8
  else if Nat.land fieldType 255 = EtwFieldFloat then 4
  else if Nat.land fieldType 255 = EtwFieldDouble then 8
  else if Nat.land fieldType 255 = EtwFieldBool32 then 4
  else if Nat.land fieldType 255 = EtwFieldGuid then 16
  else 0

/-- The first `size` bytes of a scalar in little-endian order (what `memcpy`
reads starting at the address of the local `size_t`). -/
def scalarBytes (v : Nat) (size : Nat) : List Nat :=
  (List.range size).map (fun i => v / 256 ^ i % 256)

/-- The `size` bytes `memcpy` copies from the source pointer. -/
def readBytes : MemSrc → Nat → List Nat
  | MemSrc.stack v, size => scalarBytes v size
  | MemSrc.callerPtr _ s, size => (cstr s).take size

/-- `EtwProvider::CreateTraceProperty`: computes the field size, allocates a
fresh buffer (`allocOk` tells whether the pool allocation succeeds, `freshId`
is the identity of the fresh buffer), copies the value into it and returns a
descriptor pointing at the fresh buffer.  On allocation failure it returns
the zeroed descriptor (null pointer). -/
def CreateTraceProperty (allocOk : Bool) (freshId : Nat) (fieldType : Nat)
    (fieldValue : MemSrc) : EVENT_DATA_DESCRIPTOR :=
  if allocOk then
    { Ptr := PtrM.pool freshId, Size := SizeOfField fieldType fieldValue,
      DescType := 0, bytes := readBytes fieldValue (SizeOfField fieldType fieldValue) }
  else zeroedDescriptor

/-- The ternary in `WriteEvent`:
`fieldType != EtwFieldAnsiString ? &fieldValue : (void*)fieldValue`.
For the ANSI string type the caller's pointer itself is passed; for every
other type the address of the local raw value is passed.  Passing a plain
scalar where a string pointer is expected dereferences an arbitrary address
in the source (undefined); the model gives that pointer empty content. -/
def argSrc (f : FieldArg) : MemSrc :=
  if f.ftype = EtwFieldAnsiString then
    match f.value with
    | FieldValue.astr a s => MemSrc.callerPtr a s
    | FieldValue.scalar v => MemSrc.callerPtr v ""
  else
    match f.value with
    | FieldValue.scalar v => MemSrc.stack v
    | FieldValue.astr a _ => MemSrc.stack a

/-! ## Events and providers -/

/-- `EtwProviderEvent`: the source stores only the metadata descriptor and
reads the event name back out of the blob (`Name()`); the model carries the
embedded name alongside. -/
structure EtwProviderEvent where
  name : String
  metaDesc : EVENT_DATA_DESCRIPTOR
deriving DecidableEq

/-- `EtwProviderEvent::Initialize`: measures, allocates (`allocOk` is the
pool-allocation oracle; failure returns `STATUS_UNSUCCESSFUL`), serializes
the blob and wraps it in an event-metadata descriptor
(`Type = EVENT_DATA_DESCRIPTOR_TYPE_EVENT_METADATA = 1`, `Size = TotalLength`). -/
def EtwProviderEvent.init (allocOk : Bool) (eventName : String)
    (fields : List FieldArg) : Except Nat EtwProviderEvent :=
  if allocOk then
    Except.ok
      { name := eventName,
        metaDesc :=
          { Ptr := PtrM.pool 0, Size := eventMetadataLength eventName fields,
            DescType := 1, bytes := eventMetadataBlob eventName fields } }
  else Except.error STATUS_UNSUCCESSFUL

/-- The 128-bit provider GUID, with the components `FindProvider` compares. -/
structure GUID where
  Data1 : Nat
  Data2 : Nat
  Data3 : Nat
  Data4_0 : Nat
  Data4_1 : Nat
  Data4_2 : Nat
  Data4_3 : Nat
  Data4_4 : Nat
  Data4_5 : Nat
  Data4_6 : Nat
  Data4_7 : Nat
deriving DecidableEq

/-- The component-by-component GUID comparison performed by `FindProvider`. -/
def guidEq (a b : GUID) : Bool :=
  a.Data1 == b.Data1 && a.Data2 == b.Data2 && a.Data3 == b.Data3 &&
  a.Data4_0 == b.Data4_0 && a.Data4_1 == b.Data4_1 && a.Data4_2 == b.Data4_2 &&
  a.Data4_3 == b.Data4_3 && a.Data4_4 == b.Data4_4 && a.Data4_5 == b.Data4_5 &&
  a.Data4_6 == b.Data4_6 && a.Data4_7 == b.Data4_7

/-- `detail::EtwProvider`: GUID, registration handle, provider metadata
descriptor and the owned event collection (`MyVector<EtwProviderEvent>`). -/
structure EtwProvider where
  guid : GUID
  regHandle : Nat
  providerMetadataDesc : EVENT_DATA_DESCRIPTOR
  events : List EtwProviderEvent
deriving DecidableEq

/-- `EtwProvider::FindEvent`: linear scan for the first event whose embedded
name compares `strcmp`-equal to `eventName`; `none` models the `NULL` return. -/
def FindEvent (p : EtwProvider) (eventName : String) : Option EtwProviderEvent :=
  p.events.find? (fun e => e.name == eventName)

/-- `EtwProvider::AddEvent`: no-op success when `FindEvent` already finds the
name; otherwise builds the event metadata (propagating its failure status
without touching the collection) and appends the new event. -/
def AddEvent (allocOk : Bool) (p : EtwProvider) (eventName : String)
    (fields : List FieldArg) : Nat × EtwProvider :=
  match FindEvent p eventName with
  | some _ => (STATUS_SUCCESS, p)
  | none =>
    match EtwProviderEvent.init allocOk eventName fields with
    | Except.error st => (st, p)
    | Except.ok ev => (STATUS_SUCCESS, { p with events := p.events ++ [ev] })

/-- Oracles for the external calls `EtwProvider::Initialize` performs:
the status and handle `EtwRegister` produces, whether the provider metadata
allocation succeeds, and the status `EtwSetInformation` returns. -/
structure InitOracles where
  etwRegisterStatus : Nat
  regHandle : Nat
  allocOk : Bool
  etwSetInformationStatus : Nat

/-- `EtwProvider::Initialize`: register the provider (propagating a failing
registration status), build the provider metadata blob (allocation failure
gives `STATUS_UNSUCCESSFUL`), install it via `EtwSetInformation` (propagating
a failing status), and finally record the provider-metadata descriptor
(`Type = EVENT_DATA_DESCRIPTOR_TYPE_PROVIDER_METADATA = 2`). -/
def EtwProvider.init (oc : InitOracles) (providerGuid : GUID)
    (providerName : String) : Nat × EtwProvider :=
  let p0 : EtwProvider :=
    { guid := providerGuid, regHandle := 0,
      providerMetadataDesc := zeroedDescriptor, events := [] }
  if oc.etwRegisterStatus ≠ STATUS_SUCCESS then (oc.etwRegisterStatus, p0)
  else
    let p1 : EtwProvider := { p0 with regHandle := oc.regHandle }
    if oc.allocOk then
      if oc.etwSetInformationStatus ≠ STATUS_SUCCESS then
        (oc.etwSetInformationStatus, p1)
      else
        (STATUS_SUCCESS,
          { p1 with providerMetadataDesc :=
              { Ptr := PtrM.pool 0, Size := providerMetadataLength providerName,
                DescType := 2, bytes := providerMetadataBlob providerName } })
    else (STATUS_UNSUCCESSFUL, p1)

/-! ## `WriteEvent` -/

/-- Oracles for `WriteEvent`: whether the descriptor-array allocation
succeeds, whether the per-field buffer allocation for field `i` succeeds,
and the status `EtwWrite` returns. -/
structure WriteOracles where
  arrayAllocOk : Bool
  fieldAllocOk : Nat → Bool
  etwWriteStatus : Nat

/-- The loop of `WriteEvent` building `dataDescriptors[i + 2]` for each field
in caller order: a failed per-field allocation (null descriptor pointer)
aborts with `STATUS_UNSUCCESSFUL`. -/
def buildFieldDescs (fieldAllocOk : Nat → Bool) (i : Nat) :
    List FieldArg → Except Nat (List EVENT_DATA_DESCRIPTOR)
  | [] => Except.ok []
  | f :: rest =>
    if (CreateTraceProperty (fieldAllocOk i) i f.ftype (argSrc f)).Ptr = PtrM.null
    then Except.error STATUS_UNSUCCESSFUL
    else
      match buildFieldDescs fieldAllocOk (i + 1) rest with
      | Except.error st => Except.error st
      | Except.ok ds =>
        Except.ok (CreateTraceProperty (fieldAllocOk i) i f.ftype (argSrc f) :: ds)

/-- The observable outcome of `WriteEvent`: the returned status, and the
arguments passed to `EtwWrite` when it was invoked (`none` when the write
primitive was never called). -/
structure WriteOutcome where
  status : Nat
  written : Option (EVENT_DESCRIPTOR × List EVENT_DATA_DESCRIPTOR)
deriving DecidableEq

/-- `EtwProvider::WriteEvent`: look up the event (failing with
`STATUS_UNSUCCESSFUL` when absent, without calling `EtwWrite`), allocate the
descriptor array of `numberOfFields + 2` slots, fill slot 0 with the provider
metadata descriptor, slot 1 with the event metadata descriptor and slots
`2..n+1` with one per-field descriptor, then call `EtwWrite` and return its
status. -/
def WriteEvent (oc : WriteOracles) (p : EtwProvider)
    (eventDescriptor : EVENT_DESCRIPTOR) (eventName : String)
    (fields : List FieldArg) : WriteOutcome :=
  match FindEvent p eventName with
  | none => { status := STATUS_UNSUCCESSFUL, written := none }
  | some ev =>
    if oc.arrayAllocOk then
      match buildFieldDescs oc.fieldAllocOk 0 fields with
      | Except.error st => { status := st, written := none }
      | Except.ok fdescs =>
        { status := oc.etwWriteStatus,
          written := some (eventDescriptor,
            p.providerMetadataDesc :: ev.metaDesc :: fdescs) }
    else { status := STATUS_UNSUCCESSFUL, written := none }

/-! ## The provider cache and `EtwTrace` -/

/-- `FindProvider`: linear scan of the global provider cache comparing GUIDs
component by component. -/
def FindProvider (cache : List EtwProvider) (providerGuid : GUID) :
    Option EtwProvider :=
  cache.find? (fun p => guidEq p.guid providerGuid)

/-- Write back the provider the source mutates in place: replace the first
cache entry whose GUID matches. -/
def updateProvider (cache : List EtwProvider) (providerGuid : GUID)
    (p1 : EtwProvider) : List EtwProvider :=
  match cache with
  | [] => []
  | p :: rest =>
    if guidEq p.guid providerGuid then p1 :: rest
    else p :: updateProvider rest providerGuid p1

/-- All oracles `EtwTrace` needs: provider initialization, the event metadata
allocation of `AddEvent`, and the `WriteEvent` oracles. -/
structure TraceOracles where
  regOracle : InitOracles
  addAllocOk : Bool
  writeOracle : WriteOracles

/-- The observable outcome of `EtwTrace`: its status, the provider cache
after the call, and the arguments passed to `EtwWrite` (if reached). -/
structure TraceOutcome where
  status : Nat
  cache : List EtwProvider
  written : Option (EVENT_DESCRIPTOR × List EVENT_DATA_DESCRIPTOR)
deriving DecidableEq

/-- Tail of `EtwTrace` after the provider is at hand: `AddEvent` (whose
mutation of the cached provider is written back into the cache), then on
success `CreateEventDescriptor` and `WriteEvent`. -/
def addAndWrite (oc : TraceOracles) (cache : List EtwProvider)
    (p : EtwProvider) (providerGuid : GUID) (eventName : String)
    (eventLevel keyword : Nat) (fields : List FieldArg) : TraceOutcome :=
  let r := AddEvent oc.addAllocOk p eventName fields
  let cache1 := updateProvider cache providerGuid r.2
  if r.1 = STATUS_SUCCESS then
    let out := WriteEvent oc.writeOracle r.2
      (CreateEventDescriptor keyword eventLevel) eventName fields
    { status := out.status, cache := cache1, written := out.written }
  else { status := r.1, cache := cache1, written := none }

/-- `EtwTrace`, the public entry point: refuse to run above `PASSIVE_LEVEL`
(no side effects), find or create-and-register the provider (an
initialization failure is propagated and nothing is inserted into the
cache), then add the event and write it. -/
def EtwTrace (irql : Nat) (oc : TraceOracles) (cache : List EtwProvider)
    (providerName : String) (providerGuid : GUID) (eventName : String)
    (eventLevel keyword : Nat) (fields : List FieldArg) : TraceOutcome :=
  if PASSIVE_LEVEL < irql then
    { status := STATUS_UNSUCCESSFUL, cache := cache, written := none }
  else
    match FindProvider cache providerGuid with
    | some p =>
      addAndWrite oc cache p providerGuid eventName eventLevel keyword fields
    | none =>
      if (EtwProvider.init oc.regOracle providerGuid providerName).1 =
          STATUS_SUCCESS then
        addAndWrite oc
          (cache ++ [(EtwProvider.init oc.regOracle providerGuid providerName).2])
          (EtwProvider.init oc.regOracle providerGuid providerName).2
          providerGuid eventName eventLevel keyword fields
      else { status := (EtwProvider.init oc.regOracle providerGuid providerName).1,
             cache := cache, written := none }

/-! ## Derived notions used by the claims -/

/-- Number of events with a given name in a provider's collection. -/
def eventNameCount (p : EtwProvider) (eventName : String) : Nat :=
  (p.events.filter (fun e => e.name == eventName)).length

/-- A provider's event collection holds at most one event per name. -/
def uniqueEventNames (p : EtwProvider) : Prop :=
  (p.events.map EtwProviderEvent.name).Nodup

instance (p : EtwProvider) : Decidable (uniqueEventNames p) := by
  unfold uniqueEventNames; infer_instance

/-- Every provider in the cache has unique event names. -/
def CacheInv (cache : List EtwProvider) : Prop :=
  ∀ p ∈ cache, uniqueEventNames p

instance (cache : List EtwProvider) : Decidable (CacheInv cache) := by
  unfold CacheInv; infer_instance

/-! ## Claims about the entry point's error paths (C6, C7, C8) -/

/-- Claim C6: invoking the `EtwTrace` entry point from a disallowed execution
context (IRQL above `PASSIVE_LEVEL`, where blocking/allocation is not
permitted) returns `STATUS_UNSUCCESSFUL` immediately and has no side
effects: the provider cache is returned unchanged and the write primitive is
never invoked. -/
theorem etwTrace_irql_noSideEffects (irql : Nat) (oc : TraceOracles)
    (cache : List EtwProvider) (providerName : String) (providerGuid : GUID)
    (eventName : String) (eventLevel keyword : Nat) (fields : List FieldArg)
    (h : PASSIVE_LEVEL < irql) :
    EtwTrace irql oc cache providerName providerGuid eventName eventLevel
      keyword fields =
      { status := STATUS_UNSUCCESSFUL, cache := cache, written := none } := by
  simp [EtwTrace, h]

/-- Witness for C6 at a concrete elevated IRQL and concrete inputs. -/
theorem etwTrace_irql_noSideEffects_witness :
    PASSIVE_LEVEL < 2 ∧
    EtwTrace 2 ⟨⟨0, 7, true, 0⟩, true, ⟨true, fun _ => true, 0⟩⟩ []
      "Prov" ⟨1, 2, 3, 4, 5, 6, 7, 8, 9, 10, 11⟩ "Ev" 4 1 [] =
      { status := STATUS_UNSUCCESSFUL, cache := [], written := none } :=
  ⟨by decide,
   etwTrace_irql_noSideEffects 2 ⟨⟨0, 7, true, 0⟩, true, ⟨true, fun _ => true, 0⟩⟩
     [] "Prov" ⟨1, 2, 3, 4, 5, 6, 7, 8, 9, 10, 11⟩ "Ev" 4 1 [] (by decide)⟩

/-- Claim C7: when the provider is not in the cache and its initialization
fails (registration, allocation, or trait installation), the partially built
provider is never inserted into the cache — the cache is returned unchanged —
the initialization status is propagated to the caller, and nothing is
written. -/
theorem etwTrace_initFailure_notInserted (oc : TraceOracles)
    (cache : List EtwProvider) (providerName : String) (providerGuid : GUID)
    (eventName : String) (eventLevel keyword : Nat) (fields : List FieldArg)
    (hfind : FindProvider cache providerGuid = none)
    (hfail : (EtwProvider.init oc.regOracle providerGuid providerName).1 ≠
      STATUS_SUCCESS) :
    EtwTrace 0 oc cache providerName providerGuid eventName eventLevel
      keyword fields =
      { status := (EtwProvider.init oc.regOracle providerGuid providerName).1,
        cache := cache, written := none } := by
  simp [EtwTrace, PASSIVE_LEVEL, hfind, hfail]

/-- Witness for C7: a concrete failing registration status (5) is propagated
and the cache stays empty. -/
theorem etwTrace_initFailure_notInserted_witness :
    FindProvider [] ⟨1, 2, 3, 4, 5, 6, 7, 8, 9, 10, 11⟩ = none ∧
    (EtwProvider.init ⟨5, 7, true, 0⟩ ⟨1, 2, 3, 4, 5, 6, 7, 8, 9, 10, 11⟩
      "Prov").1 ≠ STATUS_SUCCESS ∧
    EtwTrace 0 ⟨⟨5, 7, true, 0⟩, true, ⟨true, fun _ => true, 0⟩⟩ [] "Prov"
      ⟨1, 2, 3, 4, 5, 6, 7, 8, 9, 10, 11⟩ "Ev" 4 1 [] =
      { status := (EtwProvider.init ⟨5, 7, true, 0⟩
          ⟨1, 2, 3, 4, 5, 6, 7, 8, 9, 10, 11⟩ "Prov").1,
        cache := [], written := none } :=
  ⟨by decide, by decide,
   etwTrace_initFailure_notInserted
     ⟨⟨5, 7, true, 0⟩, true, ⟨true, fun _ => true, 0⟩⟩ [] "Prov"
     ⟨1, 2, 3, 4, 5, 6, 7, 8, 9, 10, 11⟩ "Ev" 4 1 [] (by decide) (by decide)⟩

/-- Claim C8: `WriteEvent` for an event name absent from the provider's
collection (never registered through `AddEvent`) returns
`STATUS_UNSUCCESSFUL` without invoking the external write primitive
(`written = none`); the provider is read-only in `WriteEvent`, so no state is
modified. -/
theorem writeEvent_unknownEvent_fails (oc : WriteOracles) (p : EtwProvider)
    (eventDescriptor : EVENT_DESCRIPTOR) (eventName : String)
    (fields : List FieldArg)
    (h : FindEvent p eventName = none) :
    WriteEvent oc p eventDescriptor eventName fields =
      { status := STATUS_UNSUCCESSFUL, written := none } := by
  simp [WriteEvent, h]

/-- Witness for C8: a provider knowing only event "A" rejects a write for
event "B". -/
theorem writeEvent_unknownEvent_fails_witness :
    FindEvent ⟨⟨1, 2, 3, 4, 5, 6, 7, 8, 9, 10, 11⟩, 7,
        ⟨PtrM.pool 9, 10, 2, []⟩, [⟨"A", ⟨PtrM.pool 0, 8, 1, []⟩⟩]⟩ "B" = none ∧
    WriteEvent ⟨true, fun _ => true, 0⟩
      ⟨⟨1, 2, 3, 4, 5, 6, 7, 8, 9, 10, 11⟩, 7, ⟨PtrM.pool 9, 10, 2, []⟩,
        [⟨"A", ⟨PtrM.pool 0, 8, 1, []⟩⟩]⟩
      (CreateEventDescriptor 1 4) "B" [] =
      { status := STATUS_UNSUCCESSFUL, written := none } :=
  ⟨by decide,
   writeEvent_unknownEvent_fails ⟨true, fun _ => true, 0⟩
     ⟨⟨1, 2, 3, 4, 5, 6, 7, 8, 9, 10, 11⟩, 7, ⟨PtrM.pool 9, 10, 2, []⟩,
       [⟨"A", ⟨PtrM.pool 0, 8, 1, []⟩⟩]⟩
     (CreateEventDescriptor 1 4) "B" [] (by decide)⟩

/-! ## Blob length lemmas and claims C1 / C9 -/

/-- Byte length of a serialized NUL-terminated string. -/
theorem length_cstr (s : String) : (cstr s).length = strlen s + 1 := by
  simp [cstr, strBytes, strlen]

/-- Byte length of one field's metadata tuple. -/
theorem length_fieldMetaBytes (f : FieldArg) :
    (fieldMetaBytes f).length = strlen f.name + 1 + 1 := by
  simp [fieldMetaBytes, cstr, strBytes, strlen]

/-- The stepwise `uint16_t` accumulation equals the untruncated total
reduced modulo `2^16`. -/
theorem foldl_fieldLen_mod (fields : List FieldArg) (a : Nat) :
    fields.foldl (fun acc f => (acc + (strlen f.name + 1 + 1) % 65536) % 65536)
      (a % 65536) =
      (a + (fields.map (fun f => strlen f.name + 1 + 1)).sum) % 65536 := by
  induction fields generalizing a with
  | nil => simp
  | cons f fs ih =>
    simp only [List.foldl_cons, List.map_cons, List.sum_cons]
    rw [← Nat.add_mod, ih (a + (strlen f.name + 1 + 1)), Nat.add_assoc]

/-- The `TotalLength` value the code stores is the true serialized length
modulo `2^16`. -/
theorem eventMetadataLength_eq_mod (eventName : String) (fields : List FieldArg) :
    eventMetadataLength eventName fields =
      trueEventMetadataLength eventName fields % 65536 := by
  unfold eventMetadataLength trueEventMetadataLength
  exact foldl_fieldLen_mod fields (eventMetadataHeaderLength eventName)

/-- The serialized event metadata blob has exactly the untruncated total
length. -/
theorem length_eventMetadataBlob (eventName : String) (fields : List FieldArg) :
    (eventMetadataBlob eventName fields).length =
      trueEventMetadataLength eventName fields := by
  simp only [eventMetadataBlob, trueEventMetadataLength,
    eventMetadataHeaderLength, List.length_append, List.length_flatten,
    List.map_map, Function.comp_def, length_fieldMetaBytes, length_cstr,
    u16le, List.length_cons, List.length_nil]
  omega

/-- Decoding the leading little-endian `uint16_t` recovers the stored value
modulo `2^16`. -/
theorem decodeU16_u16le (n : Nat) (rest : List Nat) :
    decodeU16 (u16le n ++ rest) = n % 65536 := by
  show n % 256 + 256 * (n / 256 % 256) = n % 65536
  rw [show (65536 : Nat) = 256 * 256 from rfl, Nat.mod_mul]

/-- Claim C1 (amended): provided the serialized size of the event metadata
fits in a `uint16_t` (is `< 65536`), the `TotalLength` field of the blob
built by `EtwProviderEvent::Initialize` equals the exact serialized byte
length, namely `len(eventName)+1 (terminator) + 2 (total-length field)
+ 1 (tag byte)` plus `len(fieldName)+1+1 (type byte)` per field, and this
value also equals the number of bytes allocated for the blob (the allocation
size is `eventMetadataLength` itself).  Without the size bound the `uint16_t`
accumulator wraps, see the counterexample. -/
theorem eventMetadata_totalLength_exact (eventName : String)
    (fields : List FieldArg)
    (h : trueEventMetadataLength eventName fields < 65536) :
    eventMetadataLength eventName fields =
      (eventMetadataBlob eventName fields).length ∧
    decodeU16 (eventMetadataBlob eventName fields) =
      strlen eventName + 1 + 2 + 1 +
        (fields.map (fun f => strlen f.name + 1 + 1)).sum ∧
    (eventMetadataBlob eventName fields).length =
      strlen eventName + 1 + 2 + 1 +
        (fields.map (fun f => strlen f.name + 1 + 1)).sum := by
  have hblob := length_eventMetadataBlob eventName fields
  have h1 : eventMetadataLength eventName fields =
      trueEventMetadataLength eventName fields := by
    rw [eventMetadataLength_eq_mod, Nat.mod_eq_of_lt h]
  have h2 : trueEventMetadataLength eventName fields =
      strlen eventName + 1 + 2 + 1 +
        (fields.map (fun f => strlen f.name + 1 + 1)).sum := by
    simp [trueEventMetadataLength, eventMetadataHeaderLength]
  refine ⟨by rw [h1, hblob], ?_, by rw [hblob, h2]⟩
  have : decodeU16 (eventMetadataBlob eventName fields) =
      eventMetadataLength eventName fields % 65536 := by
    rw [eventMetadataBlob, List.append_assoc, List.append_assoc,
      decodeU16_u16le]
  rw [this, h1, Nat.mod_eq_of_lt h, h2]

/-- Witness for C1 at the concrete event "Login" with one field "UserId". -/
theorem eventMetadata_totalLength_exact_witness :
    trueEventMetadataLength "Login" [⟨"UserId", 8, FieldValue.scalar 42⟩] < 65536 ∧
    (eventMetadataLength "Login" [⟨"UserId", 8, FieldValue.scalar 42⟩] =
      (eventMetadataBlob "Login" [⟨"UserId", 8, FieldValue.scalar 42⟩]).length ∧
    decodeU16 (eventMetadataBlob "Login" [⟨"UserId", 8, FieldValue.scalar 42⟩]) =
      strlen "Login" + 1 + 2 + 1 +
        (([⟨"UserId", 8, FieldValue.scalar 42⟩] : List FieldArg).map
          (fun f => strlen f.name + 1 + 1)).sum ∧
    (eventMetadataBlob "Login" [⟨"UserId", 8, FieldValue.scalar 42⟩]).length =
      strlen "Login" + 1 + 2 + 1 +
        (([⟨"UserId", 8, FieldValue.scalar 42⟩] : List FieldArg).map
          (fun f => strlen f.name + 1 + 1)).sum) :=
  ⟨by decide,
   eventMetadata_totalLength_exact "Login" [⟨"UserId", 8, FieldValue.scalar 42⟩]
     (by decide)⟩

/-- Counterexample to C1 as stated: for an event name of 65532 characters
and no fields the serialized blob is 65536 bytes long, but the `uint16_t`
`TotalLength` accumulator wraps to 0, so the stored total length (and the
allocation size) differs from the exact serialized byte length. -/
theorem eventMetadata_totalLength_counterexample :
    eventMetadataLength (String.mk (List.replicate 65532 'a')) [] ≠
      (eventMetadataBlob (String.mk (List.replicate 65532 'a')) []).length := by
  have hlen : strlen (String.mk (List.replicate 65532 'a')) = 65532 := by
    show (List.replicate 65532 'a').length = 65532
    rw [List.length_replicate]
  have h1 : eventMetadataLength (String.mk (List.replicate 65532 'a')) [] = 0 := by
    rw [eventMetadataLength, List.foldl_nil, eventMetadataHeaderLength, hlen]
  have h2 : (eventMetadataBlob (String.mk (List.replicate 65532 'a')) []).length
      = 65536 := by
    rw [length_eventMetadataBlob, trueEventMetadataLength,
      eventMetadataHeaderLength, hlen, List.map_nil, List.sum_nil]
    omega
  omega

/-- Claim C9 (amended): provided the provider name is short enough that
`len(name)+1+2 < 65536`, the Provider Metadata Blob built at provider
initialization has layout `[u16 totalLength][NUL-terminated providerName]`
with `totalLength = len(name)+1+2`, both as stored in the blob and as its
exact byte length.  Without the bound the `uint16_t` cast truncates, see the
counterexample. -/
theorem providerMetadata_blob_layout (oc : InitOracles) (providerGuid : GUID)
    (providerName : String)
    (h : strlen providerName + 1 + 2 < 65536)
    (hreg : oc.etwRegisterStatus = STATUS_SUCCESS) (halloc : oc.allocOk = true)
    (hset : oc.etwSetInformationStatus = STATUS_SUCCESS) :
    (EtwProvider.init oc providerGuid providerName).2.providerMetadataDesc.bytes
      = u16le (strlen providerName + 1 + 2) ++ strBytes providerName ++ [0] ∧
    decodeU16 (EtwProvider.init oc providerGuid
        providerName).2.providerMetadataDesc.bytes =
      strlen providerName + 1 + 2 ∧
    (EtwProvider.init oc providerGuid
        providerName).2.providerMetadataDesc.bytes.length =
      strlen providerName + 1 + 2 := by
  have hb : (EtwProvider.init oc providerGuid
      providerName).2.providerMetadataDesc.bytes =
      providerMetadataBlob providerName := by
    simp [EtwProvider.init, hreg, halloc, hset, STATUS_SUCCESS]
  have hm : providerMetadataLength providerName = strlen providerName + 1 + 2 := by
    rw [providerMetadataLength, Nat.mod_eq_of_lt h]
  refine ⟨?_, ?_, ?_⟩
  · rw [hb, providerMetadataBlob, hm, cstr, List.append_assoc]
  · rw [hb, providerMetadataBlob, decodeU16_u16le, hm, Nat.mod_eq_of_lt h]
  · rw [hb, providerMetadataBlob]
    simp [u16le, length_cstr]

/-- Witness for C9: encoding the provider name "Contoso" of length 7 yields
a stored total length of 7+1+2 = 10 bytes. -/
theorem providerMetadata_blob_layout_witness :
    strlen "Contoso" + 1 + 2 < 65536 ∧
    decodeU16 (EtwProvider.init ⟨0, 7, true, 0⟩ ⟨1, 2, 3, 4, 5, 6, 7, 8, 9, 10, 11⟩
        "Contoso").2.providerMetadataDesc.bytes = strlen "Contoso" + 1 + 2 ∧
    strlen "Contoso" + 1 + 2 = 10 :=
  ⟨by decide,
   (providerMetadata_blob_layout ⟨0, 7, true, 0⟩
     ⟨1, 2, 3, 4, 5, 6, 7, 8, 9, 10, 11⟩ "Contoso" (by decide) (by decide)
     (by decide) (by decide)).2.1,
   by decide⟩

/-- Counterexample to C9 as stated: for a provider name of 65533 characters
the claimed total length is 65536, but the stored `uint16_t` wraps to 0. -/
theorem providerMetadata_totalLength_counterexample :
    decodeU16 (providerMetadataBlob (String.mk (List.replicate 65533 'a'))) ≠
      strlen (String.mk (List.replicate 65533 'a')) + 1 + 2 := by
  have hlen : strlen (String.mk (List.replicate 65533 'a')) = 65533 := by
    show (List.replicate 65533 'a').length = 65533
    rw [List.length_replicate]
  rw [providerMetadataBlob, decodeU16_u16le, providerMetadataLength, hlen]
  omega

/-! ## Claim C2: the descriptor array passed to the write primitive -/

/-- A successful run of the per-field loop yields one descriptor per field,
in the caller's order, each built by `CreateTraceProperty` at the field's
position. -/
theorem buildFieldDescs_ok (fieldAllocOk : Nat → Bool) (fields : List FieldArg) :
    ∀ (i : Nat) (ds : List EVENT_DATA_DESCRIPTOR),
      buildFieldDescs fieldAllocOk i fields = Except.ok ds →
      ds.length = fields.length ∧
      ∀ j (hj : j < fields.length),
        ds[j]? = some (CreateTraceProperty (fieldAllocOk (i + j)) (i + j)
          (fields[j].ftype) (argSrc fields[j])) := by
  induction fields with
  | nil =>
    intro i ds h
    simp only [buildFieldDescs] at h
    injection h with h
    subst h
    simp
  | cons f rest ih =>
    intro i ds h
    rw [buildFieldDescs] at h
    split at h
    · exact absurd h (by simp)
    · cases hrec : buildFieldDescs fieldAllocOk (i + 1) rest with
      | error st => rw [hrec] at h; exact absurd h (by simp)
      | ok ds1 =>
        rw [hrec] at h
        injection h with h
        subst h
        obtain ⟨hlen, hidx⟩ := ih (i + 1) ds1 hrec
        refine ⟨by simp [hlen], ?_⟩
        intro j hj
        cases j with
        | zero => simp
        | succ k =>
          have hk : k < rest.length := by simpa using hj
          have e1 : i + (k + 1) = (i + 1) + k := by omega
          simp only [List.getElem?_cons_succ, List.getElem_cons_succ, e1]
          exact hidx k hk

/-- Claim C2: whenever `WriteEvent` reaches the tracing subsystem's write
primitive, the data-descriptor array it passes has exactly
`numberOfFields + 2` entries: slot 0 is the provider metadata descriptor,
slot 1 the event metadata descriptor of the found event, and slots
`2..n+1` hold one descriptor per field in the caller's order. -/
theorem writeEvent_descriptorArray (oc : WriteOracles) (p : EtwProvider)
    (eventDescriptor : EVENT_DESCRIPTOR) (eventName : String)
    (fields : List FieldArg) (passedDescriptor : EVENT_DESCRIPTOR)
    (descs : List EVENT_DATA_DESCRIPTOR)
    (h : (WriteEvent oc p eventDescriptor eventName fields).written =
      some (passedDescriptor, descs)) :
    descs.length = fields.length + 2 ∧
    descs[0]? = some p.providerMetadataDesc ∧
    (∃ ev, FindEvent p eventName = some ev ∧ descs[1]? = some ev.metaDesc) ∧
    ∀ j (hj : j < fields.length),
      descs[j + 2]? = some (CreateTraceProperty (oc.fieldAllocOk j) j
        (fields[j].ftype) (argSrc fields[j])) := by
  unfold WriteEvent at h
  cases hfind : FindEvent p eventName with
  | none => rw [hfind] at h; exact absurd h (by simp)
  | some ev =>
    rw [hfind] at h
    by_cases ha : oc.arrayAllocOk
    · simp only [ha, if_true] at h
      cases hb : buildFieldDescs oc.fieldAllocOk 0 fields with
      | error st => rw [hb] at h; exact absurd h (by simp)
      | ok fdescs =>
        rw [hb] at h
        simp only [Option.some.injEq, Prod.mk.injEq] at h
        obtain ⟨-, hdescs⟩ := h
        subst hdescs
        obtain ⟨hlen, hidx⟩ := buildFieldDescs_ok oc.fieldAllocOk fields 0 fdescs hb
        refine ⟨by simp [hlen], by simp, ⟨ev, rfl, by simp⟩, ?_⟩
        intro j hj
        simp only [List.getElem?_cons_succ]
        have := hidx j hj
        simpa using this
    · simp [ha] at h

/-- Concrete provider for the C2 witness: it knows the single event "Ev". -/
def c2prov : EtwProvider :=
  ⟨⟨1, 2, 3, 4, 5, 6, 7, 8, 9, 10, 11⟩, 7, ⟨PtrM.pool 9, 10, 2, []⟩,
   [⟨"Ev", ⟨PtrM.pool 3, 8, 1, []⟩⟩]⟩

/-- The descriptor array `WriteEvent` passes for the C2 witness call. -/
def c2descs : List EVENT_DATA_DESCRIPTOR :=
  [⟨PtrM.pool 9, 10, 2, []⟩, ⟨PtrM.pool 3, 8, 1, []⟩,
   ⟨PtrM.pool 0, 4, 0, [42, 0, 0, 0]⟩]

/-- Witness for C2: a concrete write of one `Int32` field produces the
3-slot array `[providerMetadata, eventMetadata, field]`. -/
theorem writeEvent_descriptorArray_witness :
    (WriteEvent ⟨true, fun _ => true, 0⟩ c2prov (CreateEventDescriptor 1 4)
        "Ev" [⟨"F", 7, FieldValue.scalar 42⟩]).written =
      some (CreateEventDescriptor 1 4, c2descs) ∧
    (c2descs.length = ([⟨"F", 7, FieldValue.scalar 42⟩] : List FieldArg).length + 2 ∧
     c2descs[0]? = some c2prov.providerMetadataDesc ∧
     (∃ ev, FindEvent c2prov "Ev" = some ev ∧ c2descs[1]? = some ev.metaDesc) ∧
     ∀ j (hj : j < ([⟨"F", 7, FieldValue.scalar 42⟩] : List FieldArg).length),
       c2descs[j + 2]? = some (CreateTraceProperty
         ((⟨true, fun _ => true, 0⟩ : WriteOracles).fieldAllocOk j) j
         ((([⟨"F", 7, FieldValue.scalar 42⟩] : List FieldArg)[j]).ftype)
         (argSrc (([⟨"F", 7, FieldValue.scalar 42⟩] : List FieldArg)[j])))) :=
  ⟨by decide,
   writeEvent_descriptorArray ⟨true, fun _ => true, 0⟩ c2prov
     (CreateEventDescriptor 1 4) "Ev" [⟨"F", 7, FieldValue.scalar 42⟩]
     (CreateEventDescriptor 1 4) c2descs (by decide)⟩

/-! ## Claim C3: `AddEvent` is idempotent -/

/-- `find?` skips a prefix in which nothing matches. -/
theorem find?_append_none {α : Type} (l1 l2 : List α) (q : α → Bool)
    (h : l1.find? q = none) : (l1 ++ l2).find? q = l2.find? q := by
  rw [List.find?_append, h, Option.none_or]

/-- An absent event name has count 0 in the provider's collection. -/
theorem eventNameCount_eq_zero (p : EtwProvider) (eventName : String)
    (h : FindEvent p eventName = none) :
    eventNameCount p eventName = 0 := by
  rw [FindEvent, List.find?_eq_none] at h
  rw [eventNameCount, List.length_eq_zero, List.filter_eq_nil_iff]
  exact h

/-- Claim C3: `AddEvent` is idempotent.  Starting from any provider state
satisfying the reachable-state invariant that the event name occurs at most
once, if a first `AddEvent` call for a name succeeds then exactly one event
with that name is in the collection, and a second `AddEvent` call with the
same name — whatever its field list, and even if its allocation oracle would
fail — returns success and leaves the provider (and hence the existing
metadata) completely unchanged. -/
theorem addEvent_idempotent (p : EtwProvider) (eventName : String)
    (fields1 fields2 : List FieldArg) (ok1 ok2 : Bool)
    (hinv : eventNameCount p eventName ≤ 1)
    (hok : (AddEvent ok1 p eventName fields1).1 = STATUS_SUCCESS) :
    eventNameCount (AddEvent ok1 p eventName fields1).2 eventName = 1 ∧
    AddEvent ok2 (AddEvent ok1 p eventName fields1).2 eventName fields2 =
      (STATUS_SUCCESS, (AddEvent ok1 p eventName fields1).2) := by
  cases hfind : FindEvent p eventName with
  | some ev =>
    have hstate : AddEvent ok1 p eventName fields1 = (STATUS_SUCCESS, p) := by
      simp [AddEvent, hfind]
    rw [hstate]
    have hge : 1 ≤ eventNameCount p eventName := by
      rw [FindEvent] at hfind
      have hpred := List.find?_some hfind
      have hmem : ev ∈ p.events.filter (fun e => e.name == eventName) :=
        List.mem_filter.2 ⟨List.mem_of_find?_eq_some hfind, hpred⟩
      exact List.length_pos_of_mem hmem
    exact ⟨Nat.le_antisymm hinv hge, by simp [AddEvent, hfind]⟩
  | none =>
    cases ok1 with
    | false =>
      rw [AddEvent, hfind] at hok
      simp [EtwProviderEvent.init, STATUS_UNSUCCESSFUL, STATUS_SUCCESS] at hok
    | true =>
      have hcount0 := eventNameCount_eq_zero p eventName hfind
      rw [eventNameCount] at hcount0
      have hstate : AddEvent true p eventName fields1 =
          (STATUS_SUCCESS,
            { p with events := p.events ++
                [{ name := eventName,
                   metaDesc :=
                     { Ptr := PtrM.pool 0,
                       Size := eventMetadataLength eventName fields1,
                       DescType := 1,
                       bytes := eventMetadataBlob eventName fields1 } }] }) := by
        simp [AddEvent, hfind, EtwProviderEvent.init]
      rw [hstate]
      have hfind1 : FindEvent p eventName = none := hfind
      rw [FindEvent] at hfind1
      constructor
      · rw [eventNameCount]
        simp only [List.filter_append]
        rw [List.length_append, hcount0]
        simp [List.filter_cons]
      · have hfind2 : FindEvent
            { p with events := p.events ++
                [{ name := eventName,
                   metaDesc :=
                     { Ptr := PtrM.pool 0,
                       Size := eventMetadataLength eventName fields1,
                       DescType := 1,
                       bytes := eventMetadataBlob eventName fields1 } }] }
            eventName =
            some { name := eventName,
                   metaDesc :=
                     { Ptr := PtrM.pool 0,
                       Size := eventMetadataLength eventName fields1,
                       DescType := 1,
                       bytes := eventMetadataBlob eventName fields1 } } := by
          rw [FindEvent]
          show (p.events ++ [_]).find? _ = _
          rw [find?_append_none _ _ _ hfind1]
          simp
        simp [AddEvent, hfind2]

/-- Concrete provider for the C3 witness: no events yet. -/
def c3prov : EtwProvider :=
  ⟨⟨1, 2, 3, 4, 5, 6, 7, 8, 9, 10, 11⟩, 7, ⟨PtrM.pool 9, 10, 2, []⟩, []⟩

/-- Witness for C3: after registering "Ev" once, a second `AddEvent` with a
different field list (and a failing allocation oracle, which is never
consulted) is a pure no-op success. -/
theorem addEvent_idempotent_witness :
    eventNameCount c3prov "Ev" ≤ 1 ∧
    (AddEvent true c3prov "Ev" []).1 = STATUS_SUCCESS ∧
    (eventNameCount (AddEvent true c3prov "Ev" []).2 "Ev" = 1 ∧
     AddEvent false (AddEvent true c3prov "Ev" []).2 "Ev"
         [⟨"X", 3, FieldValue.scalar 1⟩] =
       (STATUS_SUCCESS, (AddEvent true c3prov "Ev" []).2)) :=
  ⟨by decide, by decide,
   addEvent_idempotent c3prov "Ev" [] [⟨"X", 3, FieldValue.scalar 1⟩] true false
     (by decide) (by decide)⟩

/-! ## Claim C4: unknown field types -/

/-- The masked type tags for which `SizeOfField` has a `case` with a nonzero
size rule. -/
def knownSizeTags : List Nat :=
  [EtwFieldAnsiString, EtwFieldInt8, EtwFieldUInt8, EtwFieldInt16,
   EtwFieldUInt16, EtwFieldInt32, EtwFieldUInt32, EtwFieldInt64,
   EtwFieldUInt64, EtwFieldFloat, EtwFieldDouble, EtwFieldBool32,
   EtwFieldGuid]

/-- `SizeOfField` falls through to `default` (size 0) on every unknown tag. -/
theorem sizeOfField_unknown_eq_zero (fieldType : Nat) (src : MemSrc)
    (h : Nat.land fieldType 255 ∉ knownSizeTags) :
    SizeOfField fieldType src = 0 := by
  simp only [knownSizeTags, List.mem_cons, List.not_mem_nil, or_false,
    not_or] at h
  obtain ⟨h1, h2, h3, h4, h5, h6, h7, h8, h9, h10, h11, h12, h13⟩ := h
  simp [SizeOfField, h1, h2, h3, h4, h5, h6, h7, h8, h9, h10, h11, h12, h13]

/-- `memcpy` of zero bytes copies nothing. -/
theorem readBytes_zero (src : MemSrc) : readBytes src 0 = [] := by
  cases src <;> simp [readBytes, scalarBytes]

/-- Claim C4 (amended): for unknown/unsupported type tags `SizeOfField`
returns 0, but `WriteEvent` does not treat this as a construction failure:
`CreateTraceProperty` only yields a null pointer when the pool allocation
itself fails, and a zero-byte allocation that succeeds produces a descriptor
of size 0 that is passed silently to the write primitive, whose status is
returned.  The write aborts with `STATUS_UNSUCCESSFUL` only when the
per-field allocation fails. -/
theorem unknownFieldType_silentZeroLength :
    (∀ (fieldType : Nat) (src : MemSrc),
      Nat.land fieldType 255 ∉ knownSizeTags → SizeOfField fieldType src = 0) ∧
    (∀ (oc : WriteOracles) (p : EtwProvider)
       (eventDescriptor : EVENT_DESCRIPTOR) (eventName : String)
       (ev : EtwProviderEvent) (f : FieldArg),
      FindEvent p eventName = some ev → oc.arrayAllocOk = true →
      oc.fieldAllocOk 0 = true → Nat.land f.ftype 255 ∉ knownSizeTags →
      WriteEvent oc p eventDescriptor eventName [f] =
        { status := oc.etwWriteStatus,
          written := some (eventDescriptor,
            [p.providerMetadataDesc, ev.metaDesc,
             { Ptr := PtrM.pool 0, Size := 0, DescType := 0, bytes := [] }]) }) ∧
    (∀ (oc : WriteOracles) (p : EtwProvider)
       (eventDescriptor : EVENT_DESCRIPTOR) (eventName : String)
       (ev : EtwProviderEvent) (f : FieldArg),
      FindEvent p eventName = some ev → oc.arrayAllocOk = true →
      oc.fieldAllocOk 0 = false →
      WriteEvent oc p eventDescriptor eventName [f] =
        { status := STATUS_UNSUCCESSFUL, written := none }) := by
  refine ⟨sizeOfField_unknown_eq_zero, ?_, ?_⟩
  · intro oc p eventDescriptor eventName ev f hfind ha hf0 hunk
    have hsz := sizeOfField_unknown_eq_zero f.ftype (argSrc f) hunk
    have hd : CreateTraceProperty (oc.fieldAllocOk 0) 0 f.ftype (argSrc f) =
        { Ptr := PtrM.pool 0, Size := 0, DescType := 0, bytes := [] } := by
      rw [hf0]
      simp [CreateTraceProperty, hsz, readBytes_zero]
    simp [WriteEvent, hfind, ha, buildFieldDescs, hd]
  · intro oc p eventDescriptor eventName ev f hfind ha hf0
    have hd : CreateTraceProperty (oc.fieldAllocOk 0) 0 f.ftype (argSrc f) =
        zeroedDescriptor := by
      rw [hf0]
      simp [CreateTraceProperty]
    simp [WriteEvent, hfind, ha, buildFieldDescs, hd, zeroedDescriptor]

/-- Witness for C4 (amended): the unsupported tag `EtwFieldBinary` (14) has
size 0. -/
theorem unknownFieldType_silentZeroLength_witness :
    Nat.land EtwFieldBinary 255 ∉ knownSizeTags ∧
    SizeOfField EtwFieldBinary (MemSrc.stack 5) = 0 :=
  ⟨by decide,
   unknownFieldType_silentZeroLength.1 EtwFieldBinary (MemSrc.stack 5)
     (by decide)⟩

/-- Concrete provider for the C4 counterexample: it knows event "E". -/
def c4prov : EtwProvider :=
  ⟨⟨1, 2, 3, 4, 5, 6, 7, 8, 9, 10, 11⟩, 7, ⟨PtrM.pool 9, 10, 2, []⟩,
   [⟨"E", ⟨PtrM.pool 3, 8, 1, []⟩⟩]⟩

/-- Counterexample to C4 as stated: writing a field with the unsupported tag
`EtwFieldBinary` while all allocations succeed is NOT aborted — the write
primitive is reached with a silent zero-length field descriptor in slot 2
and its status (success here) is returned. -/
theorem unknownFieldType_counterexample :
    (WriteEvent ⟨true, fun _ => true, STATUS_SUCCESS⟩ c4prov
        (CreateEventDescriptor 1 4) "E"
        [⟨"F", EtwFieldBinary, FieldValue.scalar 5⟩]).status = STATUS_SUCCESS ∧
    (WriteEvent ⟨true, fun _ => true, STATUS_SUCCESS⟩ c4prov
        (CreateEventDescriptor 1 4) "E"
        [⟨"F", EtwFieldBinary, FieldValue.scalar 5⟩]).written =
      some (CreateEventDescriptor 1 4,
        [⟨PtrM.pool 9, 10, 2, []⟩, ⟨PtrM.pool 3, 8, 1, []⟩,
         ⟨PtrM.pool 0, 0, 0, []⟩]) ∧
    STATUS_SUCCESS ≠ STATUS_UNSUCCESSFUL := by
  refine ⟨by decide, by decide, by decide⟩

/-! ## Claim C5: string fields are copied, not aliased -/

/-- Claim C5 (amended): every field value, strings included, is copied into
freshly allocated pool storage.  For an ANSI-string field the bytes at the
caller's pointer (content plus NUL terminator, `strlen+1` of them) are
copied into the fresh buffer and the descriptor points at that pool buffer —
never at the caller-owned string.  (Non-string values are likewise copied,
from the raw argument bytes.) -/
theorem ansiString_copied_notAliased :
    (∀ (i addr : Nat) (s : String),
      CreateTraceProperty true i EtwFieldAnsiString (MemSrc.callerPtr addr s) =
        { Ptr := PtrM.pool i, Size := strlen s + 1, DescType := 0,
          bytes := cstr s }) ∧
    (∀ (i addr j : Nat) (s : String),
      (CreateTraceProperty true i EtwFieldAnsiString
        (MemSrc.callerPtr addr s)).Ptr ≠ PtrM.caller j) ∧
    (∀ (oc : WriteOracles) (p : EtwProvider)
       (eventDescriptor : EVENT_DESCRIPTOR) (eventName : String)
       (ev : EtwProviderEvent) (fname : String) (addr : Nat) (s : String),
      FindEvent p eventName = some ev → oc.arrayAllocOk = true →
      oc.fieldAllocOk 0 = true →
      WriteEvent oc p eventDescriptor eventName
          [⟨fname, EtwFieldAnsiString, FieldValue.astr addr s⟩] =
        { status := oc.etwWriteStatus,
          written := some (eventDescriptor,
            [p.providerMetadataDesc, ev.metaDesc,
             { Ptr := PtrM.pool 0, Size := strlen s + 1, DescType := 0,
               bytes := cstr s }]) }) := by
  have hland : Nat.land EtwFieldAnsiString 255 = EtwFieldAnsiString := by decide
  have hsz : ∀ (addr : Nat) (s : String),
      SizeOfField EtwFieldAnsiString (MemSrc.callerPtr addr s) =
        strlen s + 1 := by
    intro addr s
    simp [SizeOfField, hland, strlenM]
  have hctp : ∀ (i addr : Nat) (s : String),
      CreateTraceProperty true i EtwFieldAnsiString (MemSrc.callerPtr addr s) =
        { Ptr := PtrM.pool i, Size := strlen s + 1, DescType := 0,
          bytes := cstr s } := by
    intro i addr s
    simp only [CreateTraceProperty, if_true, hsz, readBytes]
    rw [← length_cstr, List.take_length]
  refine ⟨hctp, ?_, ?_⟩
  · intro i addr j s
    rw [hctp]
    simp
  · intro oc p eventDescriptor eventName ev fname addr s hfind ha hf0
    have hsrc : argSrc ⟨fname, EtwFieldAnsiString, FieldValue.astr addr s⟩ =
        MemSrc.callerPtr addr s := by
      simp [argSrc]
    have hd : CreateTraceProperty (oc.fieldAllocOk 0) 0
        (⟨fname, EtwFieldAnsiString, FieldValue.astr addr s⟩ : FieldArg).ftype
        (argSrc ⟨fname, EtwFieldAnsiString, FieldValue.astr addr s⟩) =
        { Ptr := PtrM.pool 0, Size := strlen s + 1, DescType := 0,
          bytes := cstr s } := by
      rw [hf0, hsrc]
      exact hctp 0 addr s
    simp [WriteEvent, hfind, ha, buildFieldDescs, hd]

/-- Concrete provider for the C5 witness. -/
def c5wprov : EtwProvider :=
  ⟨⟨1, 2, 3, 4, 5, 6, 7, 8, 9, 10, 11⟩, 7, ⟨PtrM.pool 9, 10, 2, []⟩,
   [⟨"E", ⟨PtrM.pool 3, 8, 1, []⟩⟩]⟩

/-- Witness for C5 (amended) at a concrete ANSI-string field "hi" stored at
caller address 77. -/
theorem ansiString_copied_notAliased_witness :
    FindEvent c5wprov "E" = some ⟨"E", ⟨PtrM.pool 3, 8, 1, []⟩⟩ ∧
    WriteEvent ⟨true, fun _ => true, 0⟩ c5wprov (CreateEventDescriptor 1 4) "E"
        [⟨"Msg", EtwFieldAnsiString, FieldValue.astr 77 "hi"⟩] =
      { status := (⟨true, fun _ => true, 0⟩ : WriteOracles).etwWriteStatus,
        written := some (CreateEventDescriptor 1 4,
          [c5wprov.providerMetadataDesc, (⟨"E", ⟨PtrM.pool 3, 8, 1, []⟩⟩ :
              EtwProviderEvent).metaDesc,
           { Ptr := PtrM.pool 0, Size := strlen "hi" + 1, DescType := 0,
             bytes := cstr "hi" }]) } :=
  ⟨by decide,
   ansiString_copied_notAliased.2.2 ⟨true, fun _ => true, 0⟩ c5wprov
     (CreateEventDescriptor 1 4) "E" ⟨"E", ⟨PtrM.pool 3, 8, 1, []⟩⟩ "Msg" 77
     "hi" (by decide) (by decide) (by decide)⟩

/-- Concrete provider for the C5 counterexample. -/
def c5prov : EtwProvider :=
  ⟨⟨1, 2, 3, 4, 5, 6, 7, 8, 9, 10, 11⟩, 7, ⟨PtrM.pool 9, 10, 2, []⟩,
   [⟨"E", ⟨PtrM.pool 3, 8, 1, []⟩⟩]⟩

/-- Counterexample to C5 as stated: for the ANSI-string field "hi" held at
caller address 77, the descriptor passed to the write primitive points at
the freshly allocated pool buffer 0 holding a copy of the bytes
`[104, 105, 0]` — not at the caller-owned string (address 77). -/
theorem ansiString_aliasing_counterexample :
    (WriteEvent ⟨true, fun _ => true, 0⟩ c5prov (CreateEventDescriptor 1 4) "E"
        [⟨"Msg", EtwFieldAnsiString, FieldValue.astr 77 "hi"⟩]).written =
      some (CreateEventDescriptor 1 4,
        [⟨PtrM.pool 9, 10, 2, []⟩, ⟨PtrM.pool 3, 8, 1, []⟩,
         ⟨PtrM.pool 0, 3, 0, [104, 105, 0]⟩]) ∧
    PtrM.pool 0 ≠ PtrM.caller 77 := by
  refine ⟨by decide, by decide⟩

/-! ## Claim C10: per-provider event names stay unique -/

/-- `AddEvent` preserves uniqueness of event names: it appends only when the
name is absent. -/
theorem addEvent_preserves_unique (ok : Bool) (p : EtwProvider)
    (eventName : String) (fields : List FieldArg)
    (h : uniqueEventNames p) :
    uniqueEventNames (AddEvent ok p eventName fields).2 := by
  cases hfind : FindEvent p eventName with
  | some ev => simpa [AddEvent, hfind] using h
  | none =>
    cases ok with
    | false => simpa [AddEvent, hfind, EtwProviderEvent.init] using h
    | true =>
      have hstate : AddEvent true p eventName fields =
          (STATUS_SUCCESS,
            { p with events := p.events ++
                [{ name := eventName,
                   metaDesc :=
                     { Ptr := PtrM.pool 0,
                       Size := eventMetadataLength eventName fields,
                       DescType := 1,
                       bytes := eventMetadataBlob eventName fields } }] }) := by
        simp [AddEvent, hfind, EtwProviderEvent.init]
      rw [hstate]
      rw [FindEvent, List.find?_eq_none] at hfind
      rw [uniqueEventNames] at h ⊢
      simp only [List.map_append, List.map_cons, List.map_nil]
      rw [List.nodup_append]
      refine ⟨h, List.nodup_singleton _, ?_⟩
      intro a ha hb
      rcases List.mem_map.1 ha with ⟨x, hx, rfl⟩
      have hb1 : x.name = eventName := by simpa using hb
      exact hfind x hx (by simp [hb1])

/-- A freshly initialized provider owns no events, in every branch of
`EtwProvider::Initialize`. -/
theorem init_events_nil (oc : InitOracles) (providerGuid : GUID)
    (providerName : String) :
    (EtwProvider.init oc providerGuid providerName).2.events = [] := by
  rw [EtwProvider.init]
  split_ifs <;> rfl

/-- Membership after the write-back of the mutated provider. -/
theorem mem_updateProvider {cache : List EtwProvider} {providerGuid : GUID}
    {p1 q : EtwProvider} (h : q ∈ updateProvider cache providerGuid p1) :
    q = p1 ∨ q ∈ cache := by
  induction cache with
  | nil => simp [updateProvider] at h
  | cons p rest ih =>
    rw [updateProvider] at h
    by_cases hg : guidEq p.guid providerGuid
    · rw [if_pos hg] at h
      rcases List.mem_cons.1 h with h1 | h1
      · exact Or.inl h1
      · exact Or.inr (List.mem_cons_of_mem _ h1)
    · rw [if_neg hg] at h
      rcases List.mem_cons.1 h with h1 | h1
      · subst h1
        exact Or.inr (List.mem_cons_self _ _)
      · rcases ih h1 with h2 | h2
        · exact Or.inl h2
        · exact Or.inr (List.mem_cons_of_mem _ h2)

/-- The cache produced by the add-then-write tail of `EtwTrace`. -/
theorem addAndWrite_cache (oc : TraceOracles) (cache : List EtwProvider)
    (p : EtwProvider) (providerGuid : GUID) (eventName : String)
    (eventLevel keyword : Nat) (fields : List FieldArg) :
    (addAndWrite oc cache p providerGuid eventName eventLevel keyword
        fields).cache =
      updateProvider cache providerGuid
        (AddEvent oc.addAllocOk p eventName fields).2 := by
  rw [addAndWrite]
  split_ifs <;> rfl

/-- The add-then-write tail preserves the cache invariant whenever the cache
it starts from satisfies it and the provider being mutated has unique event
names. -/
theorem cacheInv_addAndWrite (oc : TraceOracles) (cache : List EtwProvider)
    (p : EtwProvider) (providerGuid : GUID) (eventName : String)
    (eventLevel keyword : Nat) (fields : List FieldArg)
    (hinv : CacheInv cache) (hp : uniqueEventNames p) :
    CacheInv (addAndWrite oc cache p providerGuid eventName eventLevel
      keyword fields).cache := by
  rw [addAndWrite_cache]
  intro q hq
  rcases mem_updateProvider hq with rfl | hq2
  · exact addEvent_preserves_unique _ _ _ _ hp
  · exact hinv q hq2

/-- Claim C10 (invariant): the empty initial cache satisfies the uniqueness
invariant — each provider holds at most one Event Metadata Builder per event
name — and the public entry point `EtwTrace` (hence `AddEvent` and
`WriteEvent` through it) preserves it from any state satisfying it, for all
inputs, IRQLs and oracle behaviours. -/
theorem etwTrace_preserves_uniqueEventNames :
    CacheInv [] ∧
    ∀ (irql : Nat) (oc : TraceOracles) (cache : List EtwProvider)
      (providerName : String) (providerGuid : GUID) (eventName : String)
      (eventLevel keyword : Nat) (fields : List FieldArg),
      CacheInv cache →
      CacheInv (EtwTrace irql oc cache providerName providerGuid eventName
        eventLevel keyword fields).cache := by
  constructor
  · intro p hp
    exact absurd hp (List.not_mem_nil p)
  · intro irql oc cache providerName providerGuid eventName eventLevel
      keyword fields hinv
    by_cases hirql : PASSIVE_LEVEL < irql
    · rw [EtwTrace, if_pos hirql]
      exact hinv
    · rw [EtwTrace, if_neg hirql]
      cases hfp : FindProvider cache providerGuid with
      | some p =>
        show CacheInv (addAndWrite oc cache p providerGuid eventName
          eventLevel keyword fields).cache
        rw [FindProvider] at hfp
        exact cacheInv_addAndWrite oc cache p providerGuid eventName
          eventLevel keyword fields hinv (hinv p (List.mem_of_find?_eq_some hfp))
      | none =>
        have hnewu : uniqueEventNames
            (EtwProvider.init oc.regOracle providerGuid providerName).2 := by
          rw [uniqueEventNames, init_events_nil]
          exact List.nodup_nil
        show CacheInv (if (EtwProvider.init oc.regOracle providerGuid
              providerName).1 = STATUS_SUCCESS then
            addAndWrite oc (cache ++
              [(EtwProvider.init oc.regOracle providerGuid providerName).2])
              (EtwProvider.init oc.regOracle providerGuid providerName).2
              providerGuid eventName eventLevel keyword fields
          else { status := (EtwProvider.init oc.regOracle providerGuid
                   providerName).1, cache := cache, written := none }).cache
        by_cases hst : (EtwProvider.init oc.regOracle providerGuid
            providerName).1 = STATUS_SUCCESS
        · rw [if_pos hst]
          have hinv2 : CacheInv (cache ++
              [(EtwProvider.init oc.regOracle providerGuid providerName).2]) := by
            intro q hq
            rcases List.mem_append.1 hq with h3 | h3
            · exact hinv q h3
            · have hq3 : q =
                  (EtwProvider.init oc.regOracle providerGuid providerName).2 := by
                simpa using h3
              rw [hq3]
              exact hnewu
          exact cacheInv_addAndWrite _ _ _ _ _ _ _ _ hinv2 hnewu
        · rw [if_neg hst]
          exact hinv

/-- Witness for C10: the invariant holds for the empty cache and is
preserved by a concrete successful `EtwTrace` call. -/
theorem etwTrace_preserves_uniqueEventNames_witness :
    CacheInv [] ∧
    CacheInv (EtwTrace 0 ⟨⟨0, 7, true, 0⟩, true, ⟨true, fun _ => true, 0⟩⟩ []
      "Prov" ⟨1, 2, 3, 4, 5, 6, 7, 8, 9, 10, 11⟩ "Ev" 4 1
      [⟨"F", 7, FieldValue.scalar 5⟩]).cache :=
  ⟨by decide,
   etwTrace_preserves_uniqueEventNames.2 0
     ⟨⟨0, 7, true, 0⟩, true, ⟨true, fun _ => true, 0⟩⟩ [] "Prov"
     ⟨1, 2, 3, 4, 5, 6, 7, 8, 9, 10, 11⟩ "Ev" 4 1
     [⟨"F", 7, FieldValue.scalar 5⟩] (by decide)⟩

end STrace
